import Mathlib

/-!
Shallow embedding of `backend/danswer/connectors/bookstack/connector.py`
(the BookStack connector of the danswer repository), together with proofs
of the specification claims about it.

Modelling conventions:
* Raw API records (Python `dict[str, Any]` JSON values) are association
  lists `BRecord` over a small JSON-ish value type `BValue`.
* The external `BookStackApiClient` collaborator (its source file is not
  part of the repository slice) is a structure holding the three credential
  fields plus two oracle functions `get` and `build_app_url`, exactly the
  interface the connector uses.
* Python exceptions are an explicit `Except ConnError` result.
* The `while True:` pagination loop of `poll_source` is written with an
  explicit fuel parameter (`none` = the loop did not finish within the
  fuel); the loop also records the requests it issues and the per-fetch
  record counts, which the Python code observes through the API calls it
  makes.
* `time.sleep` calls have no observable effect in this model and are
  dropped.
-/

namespace BookstackSpec

/-- JSON-ish value stored in a raw API record.  `vlist` holds an array of
objects (the shape of the `data` field of list responses).  Python's
`str()` rendering of list values is not modelled precisely (no claim
applies `str` to a list). -/
inductive BValue where
  | vstr (s : String)
  | vint (n : Int)
  | vnull
  | vlist (records : List (List (String × BValue)))

/-- A raw API record: an insertion-ordered string-keyed mapping. -/
abbrev BRecord := List (String × BValue)

/-- Python `d.get(k)` without default: `some` value or `none` when the key
is absent. -/
def dictLookup (r : BRecord) (k : String) : Option BValue :=
  List.lookup k r

/-- Python `d.get(k, default)`. -/
def dictGetD (r : BRecord) (k : String) (d : BValue) : BValue :=
  (dictLookup r k).getD d

/-- Python `d.get(k)`: absent keys give `None`. -/
def dictGet (r : BRecord) (k : String) : BValue :=
  dictGetD r k .vnull

/-- Python `str()` on the values a record can hold.  `str(None) = "None"`.
List rendering is a placeholder (no claim stringifies a list). -/
def pyStr : BValue → String
  | .vstr s => s
  | .vint n => toString n
  | .vnull => "None"
  | .vlist _ => "[...]"

/-- The exceptions the connector code can raise in this model. -/
inductive ConnError where
  | clientNotSetUp
  | typeError
deriving Repr, DecidableEq

/-- Message carried by `BookstackClientNotSetUpError` (a `PermissionError`
subclass in the source). -/
def BookstackClientNotSetUpError_msg : String :=
  "BookStack Client is not set up, was load_credentials called?"

/-- Python `+` restricted to the operands the transformers build: defined
on two strings, a `TypeError` otherwise. -/
def pyAddStr : BValue → BValue → Except ConnError String
  | .vstr a, .vstr b => .ok (a ++ b)
  | _, _ => .error .typeError

/-- Output section: a (link, text) pair, from `danswer.connectors.models`. -/
structure Section where
  link : String
  text : String

/-- Output document, from `danswer.connectors.models` (the fields this
connector populates). -/
structure Document where
  id : String
  sections : List Section
  source : String
  semantic_identifier : String
  metadata : List (String × BValue)

/-- Modelled from the spec: `DocumentSource.BOOKSTACK`, the constant source
tag (its defining file `danswer/configs/constants.py` is not in the slice). -/
def DocumentSource_BOOKSTACK : String := "bookstack"

/-- Modelled from the spec: `HTML_SEPARATOR`, the configured separator
string used by `get_text` (defined in `danswer/configs/constants.py`,
not in the slice). -/
def HTML_SEPARATOR : String := "\n"

/-- The external API client collaborator
(`danswer.connectors.bookstack.client.BookStackApiClient`, not in the
slice).  `get` and `build_app_url` are oracle functions supplied by each
theorem; the three credential fields mirror its constructor arguments. -/
structure BookStackApiClient where
  base_url : String
  token_id : String
  token_secret : String
  get : String → List (String × String) → BRecord
  build_app_url : String → String

/-- Connector state: `self.batch_size` and `self.bookstack_client`. -/
structure BookstackConnector where
  batch_size : Nat
  bookstack_client : Option BookStackApiClient

/-- Constructor `BookstackConnector.__init__`: stores the batch size, leaves the
client unset. -/
def BookstackConnector.init (batch_size : Nat) : BookstackConnector :=
  { batch_size := batch_size, bookstack_client := none }

/-- Credential mapping required by `load_credentials`. -/
structure BookstackCredentials where
  bookstack_base_url : String
  bookstack_api_token_id : String
  bookstack_api_token_secret : String

/-- Modelled from the spec: `load_credentials` constructs the API client
from the three credential fields and stores it; the HTTP behaviour of the
constructed client (its `get`/`build_app_url`) comes from the transport
layer, supplied here as oracles.  Returns `none` (no supplementary
credential data). -/
def load_credentials (st : BookstackConnector) (credentials : BookstackCredentials)
    (transport : String → List (String × String) → BRecord)
    (app_url : String → String) : BookstackConnector × Option Unit :=
  ({ st with
      bookstack_client := some
        { base_url := credentials.bookstack_base_url
          token_id := credentials.bookstack_api_token_id
          token_secret := credentials.bookstack_api_token_secret
          get := transport
          build_app_url := app_url } },
    none)

/-! ### UTC timestamp formatting

Model of `datetime.utcfromtimestamp(t).strftime("%Y-%m-%d %H:%M:%S")`
(Python standard library, not repository code): proleptic-Gregorian civil
date from days since the Unix epoch, with zero-padded fields. -/

/-- Zero-pad a (nonnegative) integer to two digits. -/
def pad2 (n : Int) : String :=
  if n < 10 then "0" ++ toString n else toString n

/-- Zero-pad a (nonnegative) integer to four digits (years in the
supported range render as four digits). -/
def pad4 (n : Int) : String :=
  if n < 10 then "000" ++ toString n
  else if n < 100 then "00" ++ toString n
  else if n < 1000 then "0" ++ toString n
  else toString n

/-- Civil (year, month, day) from days since 1970-01-01, proleptic
Gregorian calendar (floored divisions throughout). -/
def civilFromDays (z0 : Int) : Int × Int × Int :=
  let z := z0 + 719468
  let era := Int.fdiv z 146097
  let doe := z - era * 146097
  let yoe := Int.fdiv
    (doe - Int.fdiv doe 1460 + Int.fdiv doe 36524 - Int.fdiv doe 146096) 365
  let y := yoe + era * 400
  let doy := doe - (365 * yoe + Int.fdiv yoe 4 - Int.fdiv yoe 100)
  let mp := Int.fdiv (5 * doy + 2) 153
  let d := doy - Int.fdiv (153 * mp + 2) 5 + 1
  let m := mp + (if mp < 10 then 3 else (-9 : Int))
  (y + (if m ≤ 2 then 1 else 0), m, d)

/-- Model of `datetime.utcfromtimestamp(t).strftime("%Y-%m-%d %H:%M:%S")`. -/
def utcStrftime (t : Int) : String :=
  let days := Int.fdiv t 86400
  let secs := Int.fmod t 86400
  let ymd := civilFromDays days
  let hh := Int.fdiv secs 3600
  let mm := Int.fdiv (Int.fmod secs 3600) 60
  let ss := Int.fmod secs 60
  pad4 ymd.1 ++ "-" ++ pad2 ymd.2.1 ++ "-" ++ pad2 ymd.2.2 ++ " "
    ++ pad2 hh ++ ":" ++ pad2 mm ++ ":" ++ pad2 ss

/-- Query parameters built by `_get_doc_batch` (insertion order preserved).
Python's `if start:` / `if end:` are truthiness tests: `None` and `0` both
skip the filter. -/
def mkParams (batch_size start_ind : Nat) (start end_ : Option Int) :
    List (String × String) :=
  [("count", toString batch_size), ("offset", toString start_ind), ("sort", "+id")]
  ++ (match start with
      | some s => if s = 0 then [] else [("filter[updated_at:gte]", utcStrftime s)]
      | none => [])
  ++ (match end_ with
      | some s => if s = 0 then [] else [("filter[updated_at:lte]", utcStrftime s)]
      | none => [])

/-! ### HTML escaping and text extraction

Models of `html.escape` (Python standard library) and of
`BeautifulSoup(page_html, "html.parser").get_text(HTML_SEPARATOR)`
(third-party library): text chunks between tags are collected, entity
references produced by `html.escape` are decoded, and the chunks are
joined with the separator.  Only the five entities `html.escape` emits
are decoded (no claim exercises other entities). -/

/-- One character of `html.escape(s, quote=True)`. -/
def escapeChar (c : Char) : List Char :=
  if c = '&' then "&amp;".data
  else if c = '<' then "&lt;".data
  else if c = '>' then "&gt;".data
  else if c = Char.ofNat 34 then "&quot;".data
  else if c = Char.ofNat 39 then "&#x27;".data
  else [c]

/-- Apply `html.escape` to a character list. -/
def htmlEscapeList : List Char → List Char
  | [] => []
  | c :: cs => escapeChar c ++ htmlEscapeList cs

/-- Python `html.escape(s)` (with the default `quote=True`). -/
def html_escape (s : String) : String :=
  String.mk (htmlEscapeList s.data)

/-- Skip to just past the next `>` (end of an HTML tag). -/
def skipTag : List Char → List Char
  | [] => []
  | c :: rest => if c = '>' then rest else skipTag rest

theorem skipTag_length_le (l : List Char) : (skipTag l).length ≤ l.length := by
  induction l with
  | nil => simp [skipTag]
  | cons c rest ih =>
    simp only [skipTag]
    split
    · simp
    · exact Nat.le_succ_of_le ih

/-- Emit a pending (reversed) text chunk, dropping it when empty: an HTML
parser creates no text node between adjacent tags. -/
def flushChunk (acc : List Char) : List (List Char) :=
  if acc.isEmpty then [] else [acc.reverse]

/-- Maximal text runs between tags, accumulator-style tokenizer. -/
def textChunksAux : List Char → List Char → List (List Char)
  | [], acc => flushChunk acc
  | c :: rest, acc =>
    if c = '<' then flushChunk acc ++ textChunksAux (skipTag rest) []
    else textChunksAux rest (c :: acc)
termination_by l _ => l.length
decreasing_by
  · exact Nat.lt_succ_of_le (skipTag_length_le rest)
  · simp

/-- Decode the entity references emitted by `html.escape`. -/
def unescapeChars : List Char → List Char
  | [] => []
  | c :: rest =>
    if c = '&' ∧ rest.take 4 = ['a', 'm', 'p', ';'] then
      '&' :: unescapeChars (rest.drop 4)
    else if c = '&' ∧ rest.take 3 = ['l', 't', ';'] then
      '<' :: unescapeChars (rest.drop 3)
    else if c = '&' ∧ rest.take 3 = ['g', 't', ';'] then
      '>' :: unescapeChars (rest.drop 3)
    else if c = '&' ∧ rest.take 5 = ['q', 'u', 'o', 't', ';'] then
      Char.ofNat 34 :: unescapeChars (rest.drop 5)
    else if c = '&' ∧ rest.take 5 = ['#', 'x', '2', '7', ';'] then
      Char.ofNat 39 :: unescapeChars (rest.drop 5)
    else c :: unescapeChars rest
termination_by l => l.length
decreasing_by all_goals simp only [List.length_drop, List.length_cons]; omega

/-- Join text chunks with the separator (`get_text(separator)`). -/
def joinSep (sep : String) : List String → String
  | [] => ""
  | [x] => x
  | x :: xs => x ++ sep ++ joinSep sep xs

/-- Model of `BeautifulSoup(html_, "html.parser").get_text(sep)`. -/
def get_text (html_ sep : String) : String :=
  joinSep sep ((textChunksAux html_.data []).map (fun l => String.mk (unescapeChars l)))

/-! ### The four per-resource-type transformers -/

/-- Transformer type: `Callable[[BookStackApiClient, dict], Document]`,
with Python exceptions made explicit. -/
abbrev Transformer := BookStackApiClient → BRecord → Except ConnError Document

/-- Source method `BookstackConnector._book_to_document`. -/
def _book_to_document (bookstack_client : BookStackApiClient) (book : BRecord) :
    Except ConnError Document :=
  let url := bookstack_client.build_app_url ("/books/" ++ pyStr (dictGet book "slug"))
  match pyAddStr (dictGetD book "name" (.vstr "")) (.vstr "\n") with
  | .error e => .error e
  | .ok t1 =>
    match pyAddStr (.vstr t1) (dictGetD book "description" (.vstr "")) with
    | .error e => .error e
    | .ok text =>
      .ok
        { id := "book:" ++ pyStr (dictGet book "id")
          sections := [{ link := url, text := text }]
          source := DocumentSource_BOOKSTACK
          semantic_identifier := "Book: " ++ pyStr (dictGet book "name")
          metadata :=
            [("type", .vstr "book"),
             ("updated_at", .vstr (pyStr (dictGet book "updated_at")))] }

/-- Source method `BookstackConnector._chapter_to_document`. -/
def _chapter_to_document (bookstack_client : BookStackApiClient) (chapter : BRecord) :
    Except ConnError Document :=
  let url := bookstack_client.build_app_url
    ("/books/" ++ pyStr (dictGet chapter "book_slug") ++ "/chapter/"
      ++ pyStr (dictGet chapter "slug"))
  match pyAddStr (dictGetD chapter "name" (.vstr "")) (.vstr "\n") with
  | .error e => .error e
  | .ok t1 =>
    match pyAddStr (.vstr t1) (dictGetD chapter "description" (.vstr "")) with
    | .error e => .error e
    | .ok text =>
      .ok
        { id := "chapter:" ++ pyStr (dictGet chapter "id")
          sections := [{ link := url, text := text }]
          source := DocumentSource_BOOKSTACK
          semantic_identifier := "Chapter: " ++ pyStr (dictGet chapter "name")
          metadata :=
            [("type", .vstr "chapter"),
             ("updated_at", .vstr (pyStr (dictGet chapter "updated_at")))] }

/-- Source method `BookstackConnector._shelf_to_document`.  Note `updated_at` is the raw
value, not stringified. -/
def _shelf_to_document (bookstack_client : BookStackApiClient) (shelf : BRecord) :
    Except ConnError Document :=
  let url := bookstack_client.build_app_url ("/shelves/" ++ pyStr (dictGet shelf "slug"))
  match pyAddStr (dictGetD shelf "name" (.vstr "")) (.vstr "\n") with
  | .error e => .error e
  | .ok t1 =>
    match pyAddStr (.vstr t1) (dictGetD shelf "description" (.vstr "")) with
    | .error e => .error e
    | .ok text =>
      .ok
        { id := "shelf:" ++ pyStr (dictGet shelf "id")
          sections := [{ link := url, text := text }]
          source := DocumentSource_BOOKSTACK
          semantic_identifier := "Shelf: " ++ pyStr (dictGet shelf "name")
          metadata :=
            [("type", .vstr "shelf"), ("updated_at", dictGet shelf "updated_at")] }

/-- Source method `BookstackConnector._page_to_document`: issues the supplementary
`GET /pages/<id>`, prefixes the escaped name as an `<h1>` heading, and
extracts text.  The `time.sleep(0.1)` throttle has no observable effect
here.  `updated_at` is the raw fetched value, not stringified. -/
def _page_to_document (bookstack_client : BookStackApiClient) (page : BRecord) :
    Except ConnError Document :=
  let page_id := pyStr (dictGet page "id")
  let page_name := pyStr (dictGet page "name")
  let page_data := bookstack_client.get ("/pages/" ++ page_id) []
  let url := bookstack_client.build_app_url
    ("/books/" ++ pyStr (dictGet page "book_slug") ++ "/page/"
      ++ pyStr (dictGet page_data "slug"))
  let page_html :=
    "<h1>" ++ html_escape page_name ++ "</h1>" ++ pyStr (dictGet page_data "html")
  let text := get_text page_html HTML_SEPARATOR
  .ok
    { id := "page:" ++ page_id
      sections := [{ link := url, text := text }]
      source := DocumentSource_BOOKSTACK
      semantic_identifier := "Page: " ++ page_name
      metadata := [("type", .vstr "page"), ("updated_at", dictGet page_data "updated_at")] }

/-! ### Paginated batch fetch and orchestration -/

/-- Python `response.get("data", [])` followed by iteration over the records.
A present non-list `data` value would fail Python's iteration or the
record field accesses; collapsed to a `typeError` here. -/
def getIterData (response : BRecord) : Except ConnError (List BRecord) :=
  match dictGetD response "data" (.vlist []) with
  | .vlist l => .ok l
  | _ => .error .typeError

/-- The `for item in batch: doc_batch.append(transformer(...))` loop:
transforms every record, propagating the first exception. -/
def transformAll (c : BookStackApiClient) (tr : Transformer) :
    List BRecord → Except ConnError (List Document)
  | [] => .ok []
  | r :: rest =>
    match tr c r with
    | .error e => .error e
    | .ok d =>
      match transformAll c tr rest with
      | .error e => .error e
      | .ok ds => .ok (d :: ds)

/-- Source method `BookstackConnector._get_doc_batch`: one GET with `mkParams`, transform
every record of `data`, return the documents plus the raw record count. -/
def _get_doc_batch (batch_size : Nat) (bookstack_client : BookStackApiClient)
    (endpoint : String) (transformer : Transformer) (start_ind : Nat)
    (start end_ : Option Int) : Except ConnError (List Document × Nat) :=
  match getIterData
      (bookstack_client.get endpoint (mkParams batch_size start_ind start end_)) with
  | .error e => .error e
  | .ok batch =>
    match transformAll bookstack_client transformer batch with
    | .error e => .error e
    | .ok docs => .ok (docs, batch.length)

/-- A request issued to the API: endpoint plus query parameters. -/
abbrev FetchRequest := String × List (String × String)

/-- The `while True:` pagination loop of `poll_source` for one endpoint,
with explicit fuel (`none` = did not finish within the fuel).  Returns the
requests issued, and on success the non-empty batches yielded plus the
per-fetch record counts.  The `time.sleep(0.2)` between page fetches has
no observable effect here. -/
def fetchLoop (c : BookStackApiClient) (batch_size : Nat) (endpoint : String)
    (transformer : Transformer) (start end_ : Option Int) :
    Nat → Nat → List FetchRequest × Option (Except ConnError (List (List Document) × List Nat))
  | 0, _ => ([], none)
  | fuel + 1, start_ind =>
    match _get_doc_batch batch_size c endpoint transformer start_ind start end_ with
    | .error e => ([(endpoint, mkParams batch_size start_ind start end_)], some (.error e))
    | .ok (doc_batch, num_results) =>
      if num_results < batch_size then
        ([(endpoint, mkParams batch_size start_ind start end_)],
         some (.ok (if doc_batch.isEmpty then [] else [doc_batch], [num_results])))
      else
        match fetchLoop c batch_size endpoint transformer start end_ fuel
            (start_ind + num_results) with
        | (reqs, none) =>
          ((endpoint, mkParams batch_size start_ind start end_) :: reqs, none)
        | (reqs, some (.error e)) =>
          ((endpoint, mkParams batch_size start_ind start end_) :: reqs, some (.error e))
        | (reqs, some (.ok (batches, counts))) =>
          ((endpoint, mkParams batch_size start_ind start end_) :: reqs,
           some (.ok ((if doc_batch.isEmpty then batches else doc_batch :: batches),
             num_results :: counts)))

/-- The fixed `transform_by_endpoint` iteration order of `poll_source`. -/
def transform_by_endpoint : List (String × Transformer) :=
  [("/books", _book_to_document), ("/chapters", _chapter_to_document),
   ("/shelves", _shelf_to_document), ("/pages", _page_to_document)]

/-- Run the pagination loop for each endpoint in order, concatenating the
emitted batches and the request logs. -/
def runEndpoints (c : BookStackApiClient) (batch_size : Nat) (start end_ : Option Int)
    (fuel : Nat) :
    List (String × Transformer) →
      List FetchRequest × Option (Except ConnError (List (List Document)))
  | [] => ([], some (.ok []))
  | (ep, tr) :: rest =>
    match fetchLoop c batch_size ep tr start end_ fuel 0 with
    | (reqs, none) => (reqs, none)
    | (reqs, some (.error e)) => (reqs, some (.error e))
    | (reqs, some (.ok (batches, _counts))) =>
      match runEndpoints c batch_size start end_ fuel rest with
      | (reqs2, none) => (reqs ++ reqs2, none)
      | (reqs2, some (.error e)) => (reqs ++ reqs2, some (.error e))
      | (reqs2, some (.ok batches2)) => (reqs ++ reqs2, some (.ok (batches ++ batches2)))

/-- Source method `BookstackConnector.poll_source`: guard on the unset client, then the
four endpoint loops in order.  The result pairs the issued requests with
the outcome (`none` = some loop did not finish within the fuel). -/
def poll_source (connector : BookstackConnector) (start end_ : Option Int) (fuel : Nat) :
    List FetchRequest × Option (Except ConnError (List (List Document))) :=
  match connector.bookstack_client with
  | none => ([], some (.error .clientNotSetUp))
  | some c => runEndpoints c connector.batch_size start end_ fuel transform_by_endpoint

/-- Source method `BookstackConnector.load_from_state`: guard on the unset client, then
delegate to `poll_source(None, None)`. -/
def load_from_state (connector : BookstackConnector) (fuel : Nat) :
    List FetchRequest × Option (Except ConnError (List (List Document))) :=
  match connector.bookstack_client with
  | none => ([], some (.error .clientNotSetUp))
  | some _ => poll_source connector none none fuel

/-- Offsets of a run of fetches: each fetch's offset is the previous one
plus the record count that fetch received. -/
def offsetsFrom (off : Nat) : List Nat → List Nat
  | [] => []
  | c :: cs => off :: offsetsFrom (off + c) cs

/-! ### Shared helper facts -/

/-- A do-nothing API client used to instantiate theorems at concrete
inputs: every GET returns an empty response. -/
def emptyClient : BookStackApiClient :=
  { base_url := "", token_id := "", token_secret := "",
    get := fun _ _ => [], build_app_url := fun p => p }

/-- A raw book record with every field present and string/int valued. -/
def oneBookRec : BRecord :=
  [("id", .vint 1), ("slug", .vstr "b1"), ("name", .vstr "Intro"),
   ("description", .vstr "d"), ("updated_at", .vstr "2024-01-01")]

/-- A fake API holding exactly `oneBookRec` on the `/books` endpoint:
offset `0` returns the record, every other request returns no records. -/
def oneBookGet (endpoint : String) (params : List (String × String)) : BRecord :=
  if endpoint = "/books" ∧ params.lookup "offset" = some "0" then
    [("data", .vlist [oneBookRec])]
  else
    [("data", .vlist [])]

/-- Client for `oneBookGet`, with the identity app-URL builder. -/
def oneBookClient : BookStackApiClient :=
  { base_url := "", token_id := "", token_secret := "",
    get := oneBookGet, build_app_url := fun p => p }

/-- The document `_book_to_document` produces from `oneBookRec` under
`oneBookClient`. -/
def oneBookDoc : Document :=
  { id := "book:1",
    sections := [{ link := "/books/b1", text := "Intro\nd" }],
    source := DocumentSource_BOOKSTACK,
    semantic_identifier := "Book: Intro",
    metadata := [("type", .vstr "book"), ("updated_at", .vstr "2024-01-01")] }

/-! ### C1 -/

/-- C1: invoking `load_from_state` or `poll_source` while the connector's
client handle is unset yields the client-not-configured error, and no API
request is issued (the request log is empty). -/
theorem fetch_before_credentials_raises (st : BookstackConnector)
    (start end_ : Option Int) (fuel : Nat) (h : st.bookstack_client = none) :
    poll_source st start end_ fuel = ([], some (.error .clientNotSetUp)) ∧
    load_from_state st fuel = ([], some (.error .clientNotSetUp)) := by
  constructor <;> simp [poll_source, load_from_state, h]

/-- Witness for C1 at the freshly constructed connector. -/
theorem fetch_before_credentials_raises_witness :
    poll_source (BookstackConnector.init 10) (some 3) none 5 =
      ([], some (.error .clientNotSetUp)) ∧
    load_from_state (BookstackConnector.init 10) 5 =
      ([], some (.error .clientNotSetUp)) :=
  fetch_before_credentials_raises (BookstackConnector.init 10) (some 3) none 5 rfl

/-! ### C6 -/

/-- C6: with a configured client, `load_from_state` produces exactly the
result of `poll_source` with both time bounds unset (a full scan). -/
theorem load_from_state_delegates (st : BookstackConnector)
    (c : BookStackApiClient) (h : st.bookstack_client = some c) (fuel : Nat) :
    load_from_state st fuel = poll_source st none none fuel := by
  simp [load_from_state, h]

/-- Witness for C6 at a concrete configured connector. -/
theorem load_from_state_delegates_witness :
    load_from_state ⟨2, some emptyClient⟩ 3 =
      poll_source ⟨2, some emptyClient⟩ none none 3 :=
  load_from_state_delegates ⟨2, some emptyClient⟩ emptyClient rfl 3

/-! ### C3 -/

/-- C3 counterexample: the start bound `0` (the Unix epoch) is given, yet
the issued parameters contain neither time filter: the code tests Python
truthiness, so a zero bound is dropped exactly like an omitted one. -/
theorem filter_keys_absent_at_zero_bound :
    (some (0 : Int) ≠ (none : Option Int)) ∧
    (mkParams 10 0 (some (0 : Int)) (some (0 : Int))).lookup "filter[updated_at:gte]"
      = none ∧
    (mkParams 10 0 (some (0 : Int)) (some (0 : Int))).lookup "filter[updated_at:lte]"
      = none := by
  refine ⟨by simp, by decide, by decide⟩

/-- C3 (amended): for every call to the paginated batch fetch, a *nonzero*
start bound puts `filter[updated_at:gte]` (formatted `YYYY-MM-DD HH:MM:SS`
UTC) into the issued parameters, a *nonzero* end bound likewise puts
`filter[updated_at:lte]`; an omitted or zero bound leaves the
corresponding key absent entirely. -/
theorem filter_keys_follow_bounds (bs off : Nat) (start end_ : Option Int) :
    (∀ s, start = some s → s ≠ 0 →
      (mkParams bs off start end_).lookup "filter[updated_at:gte]"
        = some (utcStrftime s)) ∧
    ((start = none ∨ start = some 0) →
      (mkParams bs off start end_).lookup "filter[updated_at:gte]" = none) ∧
    (∀ s, end_ = some s → s ≠ 0 →
      (mkParams bs off start end_).lookup "filter[updated_at:lte]"
        = some (utcStrftime s)) ∧
    ((end_ = none ∨ end_ = some 0) →
      (mkParams bs off start end_).lookup "filter[updated_at:lte]" = none) := by
  refine ⟨?_, ?_, ?_, ?_⟩
  · rintro s rfl hs
    rcases end_ with _ | e <;>
      simp [mkParams, List.lookup, hs]
  · rintro (rfl | rfl)
    all_goals
      rcases end_ with _ | e
      · simp [mkParams, List.lookup]
      · rcases eq_or_ne e 0 with rfl | he
        · simp [mkParams, List.lookup]
        · simp [mkParams, List.lookup, he]
  · rintro s rfl hs
    rcases start with _ | s0
    · simp [mkParams, List.lookup, hs]
    · rcases eq_or_ne s0 0 with rfl | h0
      · simp [mkParams, List.lookup, hs]
      · simp [mkParams, List.lookup, hs, h0]
  · rintro (rfl | rfl)
    all_goals
      rcases start with _ | s0
      · simp [mkParams, List.lookup]
      · rcases eq_or_ne s0 0 with rfl | h0
        · simp [mkParams, List.lookup]
        · simp [mkParams, List.lookup, h0]

/-- Witness for C3 (amended) at concrete bounds. -/
theorem filter_keys_follow_bounds_witness :
    (mkParams 50 0 (some 1704067200) none).lookup "filter[updated_at:gte]"
      = some (utcStrftime 1704067200) ∧
    (mkParams 50 0 (some 1704067200) none).lookup "filter[updated_at:lte]" = none :=
  ⟨(filter_keys_follow_bounds 50 0 (some 1704067200) none).1 1704067200 rfl
      (by decide),
    (filter_keys_follow_bounds 50 0 (some 1704067200) none).2.2.2 (Or.inl rfl)⟩

/-! ### C5 -/

/-- C5: `_get_doc_batch` returns the transformed documents paired with the
count of raw records in the response's `data` array, and the pagination
loop's successive fetches use offsets that each advance by exactly the
count received at the previous fetch (`offsetsFrom` folds the received
counts into the offsets). -/
theorem batch_count_and_offset_advance (c : BookStackApiClient) (bs : Nat)
    (ep : String) (tr : Transformer) (st en : Option Int) :
    (∀ off docs n, _get_doc_batch bs c ep tr off st en = .ok (docs, n) →
      ∃ l, getIterData (c.get ep (mkParams bs off st en)) = .ok l ∧
        transformAll c tr l = .ok docs ∧ n = l.length) ∧
    (∀ fuel off reqs batches counts,
      fetchLoop c bs ep tr st en fuel off = (reqs, some (.ok (batches, counts))) →
      reqs = (offsetsFrom off counts).map (fun o => (ep, mkParams bs o st en))) := by
  constructor
  · intro off docs n h
    unfold _get_doc_batch at h
    split at h
    · exact absurd h (by simp)
    · rename_i l hl
      split at h
      · exact absurd h (by simp)
      · rename_i ds hds
        refine ⟨l, hl, ?_, ?_⟩
        · rw [hds]; exact congrArg Except.ok (congrArg Prod.fst (Except.ok.inj h))
        · exact (congrArg Prod.snd (Except.ok.inj h)).symm
  · intro fuel
    induction fuel with
    | zero => intro off reqs batches counts h; simp [fetchLoop] at h
    | succ fuel ih =>
      intro off reqs batches counts h
      rw [fetchLoop] at h
      split at h
      · simp at h
      · rename_i db n hdb
        split at h
        · obtain ⟨h1, h2⟩ := Prod.mk.inj h
          obtain ⟨_, h4⟩ := Prod.mk.inj (Except.ok.inj (Option.some.inj h2))
          subst h1 h4
          rfl
        · split at h
          · simp at h
          · simp at h
          · rename_i reqs' batches' counts' hrec
            obtain ⟨h1, h2⟩ := Prod.mk.inj h
            obtain ⟨_, h4⟩ := Prod.mk.inj (Except.ok.inj (Option.some.inj h2))
            subst h1 h4
            have := ih (off + n) reqs' batches' counts' hrec
            simp only [offsetsFrom, List.map, this]

/-- Witness for C5: the trace of a two-fetch run against a concrete
client, with the second offset advanced by the first fetch's count. -/
theorem batch_count_and_offset_advance_witness :
    ([("/books", mkParams 1 0 none none), ("/books", mkParams 1 1 none none)] :
        List FetchRequest) =
      (offsetsFrom 0 [1, 0]).map (fun o => ("/books", mkParams 1 o none none)) :=
  (batch_count_and_offset_advance oneBookClient 1 "/books" _book_to_document
      none none).2 3 0 _ [[oneBookDoc]] [1, 0] rfl

/-! ### C2 -/

theorem transformAll_total (c : BookStackApiClient) (tr : Transformer) :
    ∀ l : List BRecord, (∀ r ∈ l, ∃ d, tr c r = .ok d) →
      ∃ ds, transformAll c tr l = .ok ds ∧ ds.length = l.length := by
  intro l
  induction l with
  | nil => exact fun _ => ⟨[], rfl, rfl⟩
  | cons r rest ih =>
    intro h
    obtain ⟨d, hd⟩ := h r (List.mem_cons_self r rest)
    obtain ⟨ds, hds, hlen⟩ := ih (fun x hx => h x (List.mem_cons_of_mem _ hx))
    exact ⟨d :: ds, by simp [transformAll, hd, hds], by simp [hlen]⟩

/-- Core pagination lemma: against a fake API that answers every in-range
offset with the corresponding window of `recs`, the loop terminates within
`(remaining records)/P + 1` fetches and the per-fetch counts follow the
remaining length. -/
theorem fetchLoop_fake_api (c : BookStackApiClient) (ep : String) (tr : Transformer)
    (recs : List BRecord) (P : Nat) (st en : Option Int) (hP : 0 < P)
    (hserver : ∀ off, off ≤ recs.length →
      c.get ep (mkParams P off st en) = [("data", .vlist ((recs.drop off).take P))])
    (htrans : ∀ r ∈ recs, ∃ d, tr c r = .ok d) :
    ∀ fuel off, off ≤ recs.length → (recs.length - off) / P + 1 ≤ fuel →
      ∃ reqs batches counts,
        fetchLoop c P ep tr st en fuel off = (reqs, some (.ok (batches, counts))) ∧
        counts.length = (recs.length - off) / P + 1 ∧
        counts.getLast? = some ((recs.length - off) % P) := by
  intro fuel
  induction fuel with
  | zero => intro off _ hf; exact absurd hf (Nat.not_succ_le_zero _)
  | succ fuel ih =>
    intro off hoff hfuel
    have hwin : getIterData (c.get ep (mkParams P off st en)) =
        .ok ((recs.drop off).take P) := by
      rw [hserver off hoff]; rfl
    have hmem : ∀ r ∈ (recs.drop off).take P, ∃ d, tr c r = .ok d := fun r hr =>
      htrans r (List.mem_of_mem_drop (List.mem_of_mem_take hr))
    obtain ⟨ds, hds, hlen⟩ := transformAll_total c tr _ hmem
    set n := ((recs.drop off).take P).length with hn_def
    have hwlen : n = min P (recs.length - off) := by
      simp [hn_def, List.length_take, List.length_drop]
    have hbatch : _get_doc_batch P c ep tr off st en = .ok (ds, n) := by
      simp only [_get_doc_batch, hwin, hds]
    by_cases hlt : n < P
    · have hrem : recs.length - off < P := by omega
      refine ⟨[(ep, mkParams P off st en)], if ds.isEmpty then [] else [ds], [n],
        ?_, ?_, ?_⟩
      · simp only [fetchLoop, hbatch, if_pos hlt]
      · simp [Nat.div_eq_of_lt hrem]
      · simp only [List.getLast?_singleton, Nat.mod_eq_of_lt hrem]
        exact congrArg some (by omega)
    · have hnP : n = P := by omega
      have hPle : P ≤ recs.length - off := by omega
      obtain ⟨k, hk⟩ : ∃ k, recs.length - off = k + P :=
        ⟨recs.length - off - P, by omega⟩
      have hdiv : (recs.length - off) / P = (recs.length - off - P) / P + 1 := by
        rw [hk, Nat.add_div_right _ hP, Nat.add_sub_cancel]
      have e : recs.length - (off + P) = recs.length - off - P := by omega
      obtain ⟨reqs', batches', counts', heq, hlen', hlast'⟩ :=
        ih (off + P) (by omega) (by rw [e]; omega)
      rw [e] at hlen' hlast'
      refine ⟨(ep, mkParams P off st en) :: reqs',
        (if ds.isEmpty then batches' else ds :: batches'), n :: counts', ?_, ?_, ?_⟩
      · rw [hnP] at hbatch ⊢
        simp only [fetchLoop, hbatch, if_neg (by omega : ¬ P < P), heq]
      · simp only [List.length_cons, hlen']
        omega
      · have hne : counts' ≠ [] := by
          intro hnil; rw [hnil] at hlen'; simp at hlen'
        cases counts' with
        | nil => exact absurd rfl hne
        | cons c0 cs =>
          rw [List.getLast?_cons_cons, hlast']
          refine congrArg some ?_
          have : (recs.length - off - P) % P = (k + P) % P := by
            rw [Nat.add_mod_right]
            exact congrArg (· % P) (by omega)
          rw [this, ← hk]

/-- When `P` does not divide `N`, `N/P + 1` is the ceiling `⌈N/P⌉`. -/
theorem div_succ_eq_ceil (N P : Nat) (hP : 0 < P) (hnd : ¬ P ∣ N) :
    N / P + 1 = (N + P - 1) / P := by
  have hr : N % P ≠ 0 := fun h => hnd (Nat.dvd_iff_mod_eq_zero.mpr h)
  have hlt : N % P < P := Nat.mod_lt _ hP
  have h1 : (P - 1) / P = 0 := Nat.div_eq_of_lt (by omega)
  have h2 : (P - 1) % P = P - 1 := Nat.mod_eq_of_lt (by omega)
  rw [show N + P - 1 = N + (P - 1) from by omega, Nat.add_div hP, h1, h2,
    if_pos (by omega)]

/-- C2: against an API holding exactly `recs` (windowed by offset), the
pagination loop terminates, issuing `N/P + 1` fetches whose final fetch
returns `N % P` records; when `P ∤ N` that is `⌈N/P⌉` fetches with a final
short page, and when `P ∣ N` the extra final fetch returns `0` records. -/
theorem pagination_terminates_and_counts (c : BookStackApiClient) (ep : String)
    (tr : Transformer) (recs : List BRecord) (P : Nat) (st en : Option Int)
    (fuel : Nat) (hP : 0 < P)
    (hserver : ∀ off, off ≤ recs.length →
      c.get ep (mkParams P off st en) = [("data", .vlist ((recs.drop off).take P))])
    (htrans : ∀ r ∈ recs, ∃ d, tr c r = .ok d)
    (hfuel : recs.length / P + 1 ≤ fuel) :
    ∃ reqs batches counts,
      fetchLoop c P ep tr st en fuel 0 = (reqs, some (.ok (batches, counts))) ∧
      counts.length = recs.length / P + 1 ∧
      counts.getLast? = some (recs.length % P) ∧
      (¬ P ∣ recs.length →
        counts.length = (recs.length + P - 1) / P ∧ recs.length % P < P) ∧
      (P ∣ recs.length → counts.getLast? = some 0) := by
  obtain ⟨reqs, batches, counts, heq, hlen, hlast⟩ :=
    fetchLoop_fake_api c ep tr recs P st en hP hserver htrans fuel 0
      (Nat.zero_le _) (by simpa using hfuel)
  rw [Nat.sub_zero] at hlen hlast
  refine ⟨reqs, batches, counts, heq, hlen, hlast, ?_, ?_⟩
  · intro hnd
    exact ⟨by rw [hlen]; exact div_succ_eq_ceil _ _ hP hnd, Nat.mod_lt _ hP⟩
  · intro hd
    rw [hlast, Nat.dvd_iff_mod_eq_zero.mp hd]

/-- Three trivial book records for instantiating the pagination theorem. -/
def threeRecs : List BRecord :=
  [[("id", .vint 1)], [("id", .vint 2)], [("id", .vint 3)]]

/-- A fake API holding exactly `threeRecs`: each offset parameter value
maps to the corresponding window (page size 2 in the instantiation). -/
def threeGet (_endpoint : String) (params : List (String × String)) : BRecord :=
  if params.lookup "offset" = some "0" then
    [("data", .vlist [[("id", .vint 1)], [("id", .vint 2)]])]
  else if params.lookup "offset" = some "1" then
    [("data", .vlist [[("id", .vint 2)], [("id", .vint 3)]])]
  else if params.lookup "offset" = some "2" then
    [("data", .vlist [[("id", .vint 3)]])]
  else
    [("data", .vlist [])]

/-- Client for `threeGet`. -/
def threeClient : BookStackApiClient :=
  { base_url := "", token_id := "", token_secret := "",
    get := threeGet, build_app_url := fun p => p }

/-- Witness for C2 at `N = 3`, `P = 2`: two fetches, final count `1`. -/
theorem pagination_terminates_and_counts_witness :
    ∃ reqs batches counts,
      fetchLoop threeClient 2 "/books" _book_to_document none none 2 0 =
        (reqs, some (.ok (batches, counts))) ∧
      counts.length = threeRecs.length / 2 + 1 ∧
      counts.getLast? = some (threeRecs.length % 2) ∧
      (¬ 2 ∣ threeRecs.length →
        counts.length = (threeRecs.length + 2 - 1) / 2 ∧ threeRecs.length % 2 < 2) ∧
      (2 ∣ threeRecs.length → counts.getLast? = some 0) :=
  pagination_terminates_and_counts threeClient "/books" _book_to_document threeRecs
    2 none none 2 (by decide)
    (by
      intro off hoff
      have h3 : off ≤ 3 := by simpa [threeRecs] using hoff
      interval_cases off <;> rfl)
    (by intro r hr; fin_cases hr <;> exact ⟨_, rfl⟩)
    (by decide)

/-! ### C4 -/

theorem book_doc_shape (c : BookStackApiClient) (r : BRecord) (d : Document)
    (h : _book_to_document c r = .ok d) :
    d.id = "book:" ++ pyStr (dictGet r "id") ∧ d.sections.length = 1 ∧
    d.metadata.lookup "type" = some (.vstr "book") ∧
    d.metadata.lookup "updated_at" = some (.vstr (pyStr (dictGet r "updated_at"))) ∧
    d.semantic_identifier = "Book: " ++ pyStr (dictGet r "name") := by
  simp only [_book_to_document] at h
  split at h
  · exact absurd h (by simp)
  · split at h
    · exact absurd h (by simp)
    · obtain rfl := Except.ok.inj h
      exact ⟨rfl, rfl, rfl, rfl, rfl⟩

theorem chapter_doc_shape (c : BookStackApiClient) (r : BRecord) (d : Document)
    (h : _chapter_to_document c r = .ok d) :
    d.id = "chapter:" ++ pyStr (dictGet r "id") ∧ d.sections.length = 1 ∧
    d.metadata.lookup "type" = some (.vstr "chapter") ∧
    d.metadata.lookup "updated_at" = some (.vstr (pyStr (dictGet r "updated_at"))) ∧
    d.semantic_identifier = "Chapter: " ++ pyStr (dictGet r "name") := by
  simp only [_chapter_to_document] at h
  split at h
  · exact absurd h (by simp)
  · split at h
    · exact absurd h (by simp)
    · obtain rfl := Except.ok.inj h
      exact ⟨rfl, rfl, rfl, rfl, rfl⟩

theorem shelf_doc_shape (c : BookStackApiClient) (r : BRecord) (d : Document)
    (h : _shelf_to_document c r = .ok d) :
    d.id = "shelf:" ++ pyStr (dictGet r "id") ∧ d.sections.length = 1 ∧
    d.metadata.lookup "type" = some (.vstr "shelf") ∧
    d.metadata.lookup "updated_at" = some (dictGet r "updated_at") ∧
    d.semantic_identifier = "Shelf: " ++ pyStr (dictGet r "name") := by
  simp only [_shelf_to_document] at h
  split at h
  · exact absurd h (by simp)
  · split at h
    · exact absurd h (by simp)
    · obtain rfl := Except.ok.inj h
      exact ⟨rfl, rfl, rfl, rfl, rfl⟩

theorem page_doc_shape (c : BookStackApiClient) (r : BRecord) (d : Document)
    (h : _page_to_document c r = .ok d) :
    d.id = "page:" ++ pyStr (dictGet r "id") ∧ d.sections.length = 1 ∧
    d.metadata.lookup "type" = some (.vstr "page") ∧
    d.metadata.lookup "updated_at" =
      some (dictGet (c.get ("/pages/" ++ pyStr (dictGet r "id")) []) "updated_at") ∧
    d.semantic_identifier = "Page: " ++ pyStr (dictGet r "name") := by
  simp only [_page_to_document] at h
  obtain rfl := Except.ok.inj h
  exact ⟨rfl, rfl, rfl, rfl, rfl⟩

theorem transformAll_mem (c : BookStackApiClient) (tr : Transformer) :
    ∀ (l : List BRecord) (ds : List Document), transformAll c tr l = .ok ds →
      ∀ d ∈ ds, ∃ r ∈ l, tr c r = .ok d := by
  intro l
  induction l with
  | nil =>
    intro ds h d hd
    simp only [transformAll] at h
    obtain rfl := Except.ok.inj h
    simp at hd
  | cons r rest ih =>
    intro ds h d hd
    simp only [transformAll] at h
    split at h
    · exact absurd h (by simp)
    · rename_i d0 hd0
      split at h
      · exact absurd h (by simp)
      · rename_i ds' hds'
        obtain rfl := Except.ok.inj h
        rcases List.mem_cons.mp hd with rfl | hmem
        · exact ⟨r, List.mem_cons_self _ _, hd0⟩
        · obtain ⟨r', hr', htr⟩ := ih ds' hds' d hmem
          exact ⟨r', List.mem_cons_of_mem _ hr', htr⟩

theorem getDocBatch_mem (bs : Nat) (c : BookStackApiClient) (ep : String)
    (tr : Transformer) (off : Nat) (st en : Option Int) (docs : List Document)
    (n : Nat) (h : _get_doc_batch bs c ep tr off st en = .ok (docs, n)) :
    ∀ d ∈ docs, ∃ r, tr c r = .ok d := by
  unfold _get_doc_batch at h
  split at h
  · exact absurd h (by simp)
  · rename_i l hl
    split at h
    · exact absurd h (by simp)
    · rename_i ds hds
      obtain ⟨h1, h2⟩ := Prod.mk.inj (Except.ok.inj h)
      subst h1
      intro d hd
      obtain ⟨r, _, htr⟩ := transformAll_mem c tr l _ hds d hd
      exact ⟨r, htr⟩

theorem fetchLoop_mem (c : BookStackApiClient) (bs : Nat) (ep : String)
    (tr : Transformer) (st en : Option Int) :
    ∀ (fuel off : Nat) (reqs : List FetchRequest) (batches : List (List Document))
      (counts : List Nat),
      fetchLoop c bs ep tr st en fuel off = (reqs, some (.ok (batches, counts))) →
      ∀ b ∈ batches, ∀ d ∈ b, ∃ r, tr c r = .ok d := by
  intro fuel
  induction fuel with
  | zero => intro off reqs batches counts h; simp [fetchLoop] at h
  | succ fuel ih =>
    intro off reqs batches counts h
    rw [fetchLoop] at h
    split at h
    · simp at h
    · rename_i db n hdb
      split at h
      · obtain ⟨h1, h2⟩ := Prod.mk.inj h
        obtain ⟨h3, h4⟩ := Prod.mk.inj (Except.ok.inj (Option.some.inj h2))
        subst h3
        intro b hb d hd
        split at hb
        · simp at hb
        · rw [List.mem_singleton] at hb
          subst hb
          exact getDocBatch_mem bs c ep tr off st en b n hdb d hd
      · split at h
        · simp at h
        · simp at h
        · rename_i reqs' batches' counts' hrec
          obtain ⟨h1, h2⟩ := Prod.mk.inj h
          obtain ⟨h3, h4⟩ := Prod.mk.inj (Except.ok.inj (Option.some.inj h2))
          subst h3
          intro b hb d hd
          split at hb
          · exact ih (off + n) reqs' batches' counts' hrec b hb d hd
          · rcases List.mem_cons.mp hb with rfl | hmem
            · exact getDocBatch_mem bs c ep tr off st en b n hdb d hd
            · exact ih (off + n) reqs' batches' counts' hrec b hmem d hd

theorem runEndpoints_mem (c : BookStackApiClient) (bs : Nat) (st en : Option Int)
    (fuel : Nat) :
    ∀ (eps : List (String × Transformer)) (reqs : List FetchRequest)
      (batches : List (List Document)),
      runEndpoints c bs st en fuel eps = (reqs, some (.ok batches)) →
      ∀ b ∈ batches, ∀ d ∈ b, ∃ ep tr r, (ep, tr) ∈ eps ∧ tr c r = .ok d := by
  intro eps
  induction eps with
  | nil =>
    intro reqs batches h b hb
    simp only [runEndpoints] at h
    obtain ⟨h1, h2⟩ := Prod.mk.inj h
    obtain rfl := Except.ok.inj (Option.some.inj h2)
    simp at hb
  | cons p rest ih =>
    obtain ⟨ep, tr⟩ := p
    intro reqs batches h b hb d hd
    simp only [runEndpoints] at h
    split at h
    · simp at h
    · simp at h
    · rename_i reqs1 batches1 counts1 hloop
      split at h
      · simp at h
      · simp at h
      · rename_i reqs2 batches2 hrest
        obtain ⟨h1, h2⟩ := Prod.mk.inj h
        obtain h3 := Except.ok.inj (Option.some.inj h2)
        subst h3
        rcases List.mem_append.mp hb with hb1 | hb2
        · obtain ⟨r, htr⟩ :=
            fetchLoop_mem c bs ep tr st en fuel 0 reqs1 batches1 counts1 hloop b hb1 d hd
          exact ⟨ep, tr, r, List.mem_cons_self _ _, htr⟩
        · obtain ⟨ep', tr', r, hmem, htr⟩ := ih reqs2 batches2 hrest b hb2 d hd
          exact ⟨ep', tr', r, List.mem_cons_of_mem _ hmem, htr⟩

/-- The invariant of C4: a non-empty id carrying one of the four resource
type prefixes, a matching metadata `type` entry, and exactly one section. -/
def DocInv (d : Document) : Prop :=
  d.id ≠ "" ∧ d.sections.length = 1 ∧
  ∃ t s, (t = "book" ∨ t = "chapter" ∨ t = "shelf" ∨ t = "page") ∧
    d.id = t ++ ":" ++ s ∧ d.metadata.lookup "type" = some (.vstr t)

theorem prefix_append_ne_empty (a b : String) (h : 0 < a.length) : a ++ b ≠ "" := by
  intro he
  have hlen := congrArg String.length he
  rw [String.length_append] at hlen
  simp at hlen
  omega

/-- C4: every document emitted by `poll_source` or `load_from_state` has a
non-empty id beginning with the prefix of its resource type, a metadata
`type` entry equal to that resource type, and exactly one section. -/
theorem emitted_documents_invariant (conn : BookstackConnector) :
    (∀ st en fuel reqs batches,
      poll_source conn st en fuel = (reqs, some (.ok batches)) →
      ∀ b ∈ batches, ∀ d ∈ b, DocInv d) ∧
    (∀ fuel reqs batches,
      load_from_state conn fuel = (reqs, some (.ok batches)) →
      ∀ b ∈ batches, ∀ d ∈ b, DocInv d) := by
  have hp : ∀ st en fuel reqs batches,
      poll_source conn st en fuel = (reqs, some (.ok batches)) →
      ∀ b ∈ batches, ∀ d ∈ b, DocInv d := by
    intro st en fuel reqs batches h b hb d hd
    unfold poll_source at h
    split at h
    · simp at h
    · rename_i c hc
      obtain ⟨ep, tr, r, hmem, htr⟩ :=
        runEndpoints_mem c conn.batch_size st en fuel transform_by_endpoint
          reqs batches h b hb d hd
      simp only [transform_by_endpoint, List.mem_cons, List.not_mem_nil,
        or_false, Prod.mk.injEq] at hmem
      rcases hmem with ⟨-, rfl⟩ | ⟨-, rfl⟩ | ⟨-, rfl⟩ | ⟨-, rfl⟩
      · obtain ⟨hid, hsec, hty, -, -⟩ := book_doc_shape c r d htr
        refine ⟨?_, hsec, "book", pyStr (dictGet r "id"), Or.inl rfl, ?_, hty⟩
        · rw [hid]; exact prefix_append_ne_empty _ _ (by decide)
        · rw [hid]; rfl
      · obtain ⟨hid, hsec, hty, -, -⟩ := chapter_doc_shape c r d htr
        refine ⟨?_, hsec, "chapter", pyStr (dictGet r "id"),
          Or.inr (Or.inl rfl), ?_, hty⟩
        · rw [hid]; exact prefix_append_ne_empty _ _ (by decide)
        · rw [hid]; rfl
      · obtain ⟨hid, hsec, hty, -, -⟩ := shelf_doc_shape c r d htr
        refine ⟨?_, hsec, "shelf", pyStr (dictGet r "id"),
          Or.inr (Or.inr (Or.inl rfl)), ?_, hty⟩
        · rw [hid]; exact prefix_append_ne_empty _ _ (by decide)
        · rw [hid]; rfl
      · obtain ⟨hid, hsec, hty, -, -⟩ := page_doc_shape c r d htr
        refine ⟨?_, hsec, "page", pyStr (dictGet r "id"),
          Or.inr (Or.inr (Or.inr rfl)), ?_, hty⟩
        · rw [hid]; exact prefix_append_ne_empty _ _ (by decide)
        · rw [hid]; rfl
  refine ⟨hp, ?_⟩
  intro fuel reqs batches h
  unfold load_from_state at h
  split at h
  · simp at h
  · exact hp none none fuel reqs batches h

/-- Witness for C4: the invariant holds for the document emitted by a
concrete successful poll. -/
theorem emitted_documents_invariant_witness : DocInv oneBookDoc :=
  (emitted_documents_invariant ⟨5, some oneBookClient⟩).1 none none 2
    [("/books", mkParams 5 0 none none), ("/chapters", mkParams 5 0 none none),
     ("/shelves", mkParams 5 0 none none), ("/pages", mkParams 5 0 none none)]
    [[oneBookDoc]] rfl [oneBookDoc] (by simp) oneBookDoc (by simp)

/-! ### C7 -/

/-- C7: `updated_at` metadata comes from the raw record for books,
chapters and shelves and from the supplementary-fetched record for pages,
with no timestamp normalization: books and chapters force-stringify the
value (`str(...)`), while shelves and pages pass the raw/fetched value
through unconverted. -/
theorem updated_at_handling (c : BookStackApiClient) :
    (∀ r d, _book_to_document c r = .ok d →
      d.metadata.lookup "updated_at" =
        some (.vstr (pyStr (dictGet r "updated_at")))) ∧
    (∀ r d, _chapter_to_document c r = .ok d →
      d.metadata.lookup "updated_at" =
        some (.vstr (pyStr (dictGet r "updated_at")))) ∧
    (∀ r d, _shelf_to_document c r = .ok d →
      d.metadata.lookup "updated_at" = some (dictGet r "updated_at")) ∧
    (∀ r d, _page_to_document c r = .ok d →
      d.metadata.lookup "updated_at" =
        some (dictGet (c.get ("/pages/" ++ pyStr (dictGet r "id")) []) "updated_at")) :=
  ⟨fun r d h => (book_doc_shape c r d h).2.2.2.1,
   fun r d h => (chapter_doc_shape c r d h).2.2.2.1,
   fun r d h => (shelf_doc_shape c r d h).2.2.2.1,
   fun r d h => (page_doc_shape c r d h).2.2.2.1⟩

/-- The document `_shelf_to_document` produces from a record that has an
`id` but no `updated_at`: the missing value stays `None`, unconverted. -/
def shelfNullDoc : Document :=
  { id := "shelf:7",
    sections := [{ link := "/shelves/None", text := "\n" }],
    source := DocumentSource_BOOKSTACK,
    semantic_identifier := "Shelf: None",
    metadata := [("type", .vstr "shelf"), ("updated_at", .vnull)] }

/-- Witness for C7: a stringified book value and an unconverted missing
shelf value. -/
theorem updated_at_handling_witness :
    oneBookDoc.metadata.lookup "updated_at" =
      some (.vstr (pyStr (dictGet oneBookRec "updated_at"))) ∧
    shelfNullDoc.metadata.lookup "updated_at" =
      some (dictGet [("id", BValue.vint 7)] "updated_at") :=
  ⟨(updated_at_handling oneBookClient).1 oneBookRec oneBookDoc rfl,
   (updated_at_handling emptyClient).2.2.1 [("id", BValue.vint 7)] shelfNullDoc rfl⟩

/-! ### C8 -/

/-- C8: a raw record whose `name`, `description` and `id` fields are all
absent is still transformed into a Document by every transformer — no
exception — and the missing fields are rendered as the literal string
`"None"` in the id and the semantic identifier. -/
theorem missing_fields_tolerated (c : BookStackApiClient) (r : BRecord)
    (hname : dictLookup r "name" = none)
    (hdesc : dictLookup r "description" = none)
    (hid : dictLookup r "id" = none) :
    (∃ d, _book_to_document c r = .ok d ∧ d.id = "book:None" ∧
      d.semantic_identifier = "Book: None") ∧
    (∃ d, _chapter_to_document c r = .ok d ∧ d.id = "chapter:None" ∧
      d.semantic_identifier = "Chapter: None") ∧
    (∃ d, _page_to_document c r = .ok d ∧ d.id = "page:None" ∧
      d.semantic_identifier = "Page: None") ∧
    (∃ d, _shelf_to_document c r = .ok d ∧ d.id = "shelf:None" ∧
      d.semantic_identifier = "Shelf: None") := by
  have hn : dictGetD r "name" (.vstr "") = .vstr "" := by simp [dictGetD, hname]
  have hd : dictGetD r "description" (.vstr "") = .vstr "" := by simp [dictGetD, hdesc]
  have hi : dictGet r "id" = .vnull := by simp [dictGet, dictGetD, hid]
  have hnm : dictGet r "name" = .vnull := by simp [dictGet, dictGetD, hname]
  refine ⟨?_, ?_, ?_, ?_⟩
  · obtain ⟨d, hdok⟩ : ∃ d, _book_to_document c r = .ok d := by
      simp only [_book_to_document, hn, hd, pyAddStr]
      exact ⟨_, rfl⟩
    obtain ⟨h1, -, -, -, h5⟩ := book_doc_shape c r d hdok
    refine ⟨d, hdok, ?_, ?_⟩
    · rw [h1, hi]; rfl
    · rw [h5, hnm]; rfl
  · obtain ⟨d, hdok⟩ : ∃ d, _chapter_to_document c r = .ok d := by
      simp only [_chapter_to_document, hn, hd, pyAddStr]
      exact ⟨_, rfl⟩
    obtain ⟨h1, -, -, -, h5⟩ := chapter_doc_shape c r d hdok
    refine ⟨d, hdok, ?_, ?_⟩
    · rw [h1, hi]; rfl
    · rw [h5, hnm]; rfl
  · obtain ⟨d, hdok⟩ : ∃ d, _page_to_document c r = .ok d := ⟨_, rfl⟩
    obtain ⟨h1, -, -, -, h5⟩ := page_doc_shape c r d hdok
    refine ⟨d, hdok, ?_, ?_⟩
    · rw [h1, hi]; rfl
    · rw [h5, hnm]; rfl
  · obtain ⟨d, hdok⟩ : ∃ d, _shelf_to_document c r = .ok d := by
      simp only [_shelf_to_document, hn, hd, pyAddStr]
      exact ⟨_, rfl⟩
    obtain ⟨h1, -, -, -, h5⟩ := shelf_doc_shape c r d hdok
    refine ⟨d, hdok, ?_, ?_⟩
    · rw [h1, hi]; rfl
    · rw [h5, hnm]; rfl

/-- Witness for C8 at the fully-empty record. -/
theorem missing_fields_tolerated_witness :
    (∃ d, _book_to_document emptyClient [] = .ok d ∧ d.id = "book:None" ∧
      d.semantic_identifier = "Book: None") ∧
    (∃ d, _chapter_to_document emptyClient [] = .ok d ∧ d.id = "chapter:None" ∧
      d.semantic_identifier = "Chapter: None") ∧
    (∃ d, _page_to_document emptyClient [] = .ok d ∧ d.id = "page:None" ∧
      d.semantic_identifier = "Page: None") ∧
    (∃ d, _shelf_to_document emptyClient [] = .ok d ∧ d.id = "shelf:None" ∧
      d.semantic_identifier = "Shelf: None") :=
  missing_fields_tolerated emptyClient [] rfl rfl rfl

/-! ### C9 -/

theorem mkParams_lookup_offset (bs off : Nat) (st en : Option Int) :
    (mkParams bs off st en).lookup "offset" = some (toString off) := by
  simp [mkParams, List.lookup]

/-- The C9 client: the fake book API of `oneBookGet` together with an
arbitrary app-URL builder `u`. -/
def c9client (u : String → String) : BookStackApiClient :=
  { base_url := "", token_id := "", token_secret := "",
    get := oneBookGet, build_app_url := u }

/-- The document the C9 scenario should emit: id `book:1`, a single
section linking to the app URL for `/books/b1` with text `"Intro\nd"`,
semantic identifier `Book: Intro`, and book/`2024-01-01` metadata. -/
def c9doc (u : String → String) : Document :=
  { id := "book:1",
    sections := [{ link := u "/books/b1", text := "Intro\nd" }],
    source := DocumentSource_BOOKSTACK,
    semantic_identifier := "Book: Intro",
    metadata := [("type", .vstr "book"), ("updated_at", .vstr "2024-01-01")] }

/-- C9: polling the fake books endpoint holding exactly `oneBookRec`, with
any page size ≥ 1 and fuel ≥ 2, emits exactly one batch containing only
`c9doc`. -/
theorem end_to_end_book_scenario (u : String → String) (bs fuel : Nat)
    (hb : 1 ≤ bs) (hf : 2 ≤ fuel) :
    (poll_source ⟨bs, some (c9client u)⟩ none none fuel).2 =
      some (.ok [[c9doc u]]) := by
  obtain ⟨f, rfl⟩ : ∃ f, fuel = f + 2 := ⟨fuel - 2, by omega⟩
  rcases Nat.lt_or_ge 1 bs with h1 | h1
  · have hoff0 : (mkParams bs 0 none none).lookup "offset" = some "0" := by
      rw [mkParams_lookup_offset]
      rfl
    have hget0 : (c9client u).get "/books" (mkParams bs 0 none none) =
        [("data", .vlist [oneBookRec])] := by
      show oneBookGet "/books" (mkParams bs 0 none none) = _
      unfold oneBookGet
      rw [if_pos ⟨rfl, hoff0⟩]
    have hbatch1 : _get_doc_batch bs (c9client u) "/books" _book_to_document
        0 none none = .ok ([c9doc u], 1) := by
      unfold _get_doc_batch
      rw [hget0]
      rfl
    have hB : fetchLoop (c9client u) bs "/books" _book_to_document none none
        (f + 2) 0 =
        ([("/books", mkParams bs 0 none none)], some (.ok ([[c9doc u]], [1]))) := by
      simp only [fetchLoop, hbatch1]
      rw [if_pos h1]
      rfl
    have hrest : ∀ ep tr, ep ≠ "/books" →
        fetchLoop (c9client u) bs ep tr none none (f + 2) 0 =
          ([(ep, mkParams bs 0 none none)], some (.ok ([], [0]))) := by
      intro ep tr hep
      have hget : (c9client u).get ep (mkParams bs 0 none none) =
          [("data", .vlist [])] := by
        show oneBookGet ep (mkParams bs 0 none none) = _
        unfold oneBookGet
        rw [if_neg (fun hcond => hep hcond.1)]
      have hbatch : _get_doc_batch bs (c9client u) ep tr 0 none none =
          .ok ([], 0) := by
        unfold _get_doc_batch
        rw [hget]
        rfl
      simp only [fetchLoop, hbatch]
      rw [if_pos (by omega : 0 < bs)]
      rfl
    show (runEndpoints (c9client u) bs none none (f + 2) transform_by_endpoint).2 = _
    rw [show transform_by_endpoint =
        ("/books", _book_to_document) :: ("/chapters", _chapter_to_document) ::
        ("/shelves", _shelf_to_document) :: [("/pages", _page_to_document)] from rfl]
    rw [runEndpoints, hB, runEndpoints, hrest _ _ (by decide),
      runEndpoints, hrest _ _ (by decide), runEndpoints, hrest _ _ (by decide),
      runEndpoints]
    rfl
  · obtain rfl : bs = 1 := by omega
    rfl

/-- Witness for C9 at page size 1, fuel 2, the identity URL builder. -/
theorem end_to_end_book_scenario_witness :
    (poll_source ⟨1, some (c9client id)⟩ none none 2).2 =
      some (.ok [[c9doc id]]) :=
  end_to_end_book_scenario id 1 2 (by decide) (by decide)

/-! ### C10 -/

theorem escapeChar_no_lt (c : Char) : '<' ∉ escapeChar c := by
  unfold escapeChar
  split
  · decide
  · split
    · decide
    · split
      · decide
      · split
        · decide
        · split
          · decide
          · rename_i h1 h2 h3 h4 h5
            simp only [List.mem_singleton]
            exact fun h => h2 h.symm

theorem escapeChar_ne_nil (c : Char) : escapeChar c ≠ [] := by
  unfold escapeChar
  split
  · decide
  · split
    · decide
    · split
      · decide
      · split
        · decide
        · split
          · decide
          · simp

theorem htmlEscapeList_no_lt (l : List Char) : '<' ∉ htmlEscapeList l := by
  induction l with
  | nil => simp [htmlEscapeList]
  | cons c cs ih =>
    simp only [htmlEscapeList, List.mem_append]
    rintro (h | h)
    · exact escapeChar_no_lt c h
    · exact ih h

theorem htmlEscapeList_ne_nil (l : List Char) (h : l ≠ []) :
    htmlEscapeList l ≠ [] := by
  cases l with
  | nil => exact absurd rfl h
  | cons c cs =>
    simp only [htmlEscapeList, ne_eq, List.append_eq_nil]
    rintro ⟨h1, -⟩
    exact escapeChar_ne_nil c h1

theorem unescape_amp (t : List Char) :
    unescapeChars ('&' :: 'a' :: 'm' :: 'p' :: ';' :: t) = '&' :: unescapeChars t := by
  simp [unescapeChars]

theorem unescape_lt (t : List Char) :
    unescapeChars ('&' :: 'l' :: 't' :: ';' :: t) = '<' :: unescapeChars t := by
  simp [unescapeChars]

theorem unescape_gt (t : List Char) :
    unescapeChars ('&' :: 'g' :: 't' :: ';' :: t) = '>' :: unescapeChars t := by
  simp [unescapeChars]

theorem unescape_quot (t : List Char) :
    unescapeChars ('&' :: 'q' :: 'u' :: 'o' :: 't' :: ';' :: t) =
      Char.ofNat 34 :: unescapeChars t := by
  simp [unescapeChars]

theorem unescape_apos (t : List Char) :
    unescapeChars ('&' :: '#' :: 'x' :: '2' :: '7' :: ';' :: t) =
      Char.ofNat 39 :: unescapeChars t := by
  simp [unescapeChars]

theorem unescape_other (c : Char) (t : List Char) (h : c ≠ '&') :
    unescapeChars (c :: t) = c :: unescapeChars t := by
  simp [unescapeChars, h]

/-- Decoding inverts `html.escape`. -/
theorem unescape_escape (l : List Char) :
    unescapeChars (htmlEscapeList l) = l := by
  induction l with
  | nil => simp [htmlEscapeList, unescapeChars]
  | cons c cs ih =>
    show unescapeChars (escapeChar c ++ htmlEscapeList cs) = c :: cs
    by_cases h1 : c = '&'
    · subst h1
      rw [show escapeChar '&' ++ htmlEscapeList cs =
          '&' :: 'a' :: 'm' :: 'p' :: ';' :: htmlEscapeList cs from rfl,
        unescape_amp, ih]
    by_cases h2 : c = '<'
    · subst h2
      rw [show escapeChar '<' ++ htmlEscapeList cs =
          '&' :: 'l' :: 't' :: ';' :: htmlEscapeList cs from rfl,
        unescape_lt, ih]
    by_cases h3 : c = '>'
    · subst h3
      rw [show escapeChar '>' ++ htmlEscapeList cs =
          '&' :: 'g' :: 't' :: ';' :: htmlEscapeList cs from rfl,
        unescape_gt, ih]
    by_cases h4 : c = Char.ofNat 34
    · subst h4
      rw [show escapeChar (Char.ofNat 34) ++ htmlEscapeList cs =
          '&' :: 'q' :: 'u' :: 'o' :: 't' :: ';' :: htmlEscapeList cs from rfl,
        unescape_quot, ih]
    by_cases h5 : c = Char.ofNat 39
    · subst h5
      rw [show escapeChar (Char.ofNat 39) ++ htmlEscapeList cs =
          '&' :: '#' :: 'x' :: '2' :: '7' :: ';' :: htmlEscapeList cs from rfl,
        unescape_apos, ih]
    · have he : escapeChar c = [c] := by
        unfold escapeChar
        rw [if_neg h1, if_neg h2, if_neg h3, if_neg h4, if_neg h5]
      rw [he, show ([c] ++ htmlEscapeList cs) = c :: htmlEscapeList cs from rfl,
        unescape_other c _ h1, ih]

/-- Accumulating a `<`-free run, then hitting a tag: the run is flushed as
one chunk and scanning resumes after the tag. -/
theorem textChunksAux_no_lt (l : List Char) (hno : ∀ ch ∈ l, ch ≠ '<') :
    ∀ (r acc : List Char),
      textChunksAux (l ++ '<' :: r) acc =
        flushChunk (l.reverse ++ acc) ++ textChunksAux (skipTag r) [] := by
  induction l with
  | nil =>
    intro r acc
    show textChunksAux ('<' :: r) acc = _
    rw [textChunksAux, if_pos rfl]
    simp
  | cons c l' ih =>
    intro r acc
    have hc : c ≠ '<' := hno c (List.mem_cons_self _ _)
    show textChunksAux (c :: (l' ++ '<' :: r)) acc = _
    rw [textChunksAux, if_neg hc,
      ih (fun ch h => hno ch (List.mem_cons_of_mem _ h)) r (c :: acc),
      List.reverse_cons, List.append_assoc]
    rfl

theorem joinSep_head (sep x : String) (xs : List String) :
    ∃ r, joinSep sep (x :: xs) = x ++ r := by
  cases xs with
  | nil => exact ⟨"", (String.append_empty x).symm⟩
  | cons y ys =>
    refine ⟨sep ++ joinSep sep (y :: ys), ?_⟩
    rw [show joinSep sep (x :: y :: ys) = x ++ sep ++ joinSep sep (y :: ys) from rfl,
      String.append_assoc]

/-- Text extraction of the page HTML built by `_page_to_document`: the
escaped heading decodes back to the page name, which heads the extracted
text. -/
theorem get_text_h1 (name body sep : String) (hne : name.data ≠ []) :
    ∃ rest, get_text ("<h1>" ++ html_escape name ++ "</h1>" ++ body) sep =
      name ++ rest := by
  have hdata : ("<h1>" ++ html_escape name ++ "</h1>" ++ body).data =
      '<' :: 'h' :: '1' :: '>' ::
        (htmlEscapeList name.data ++
          '<' :: ('/' :: 'h' :: '1' :: '>' :: body.data)) := by
    simp [html_escape, String.data_append, List.append_assoc]
  have hesc : htmlEscapeList name.data ≠ [] := htmlEscapeList_ne_nil _ hne
  have hchunks :
      textChunksAux (("<h1>" ++ html_escape name ++ "</h1>" ++ body).data) [] =
        htmlEscapeList name.data :: textChunksAux body.data [] := by
    rw [hdata, textChunksAux, if_pos rfl,
      show skipTag ('h' :: '1' :: '>' ::
        (htmlEscapeList name.data ++
          '<' :: ('/' :: 'h' :: '1' :: '>' :: body.data))) =
        htmlEscapeList name.data ++
          '<' :: ('/' :: 'h' :: '1' :: '>' :: body.data) from rfl,
      textChunksAux_no_lt (htmlEscapeList name.data)
        (fun ch h hlt => htmlEscapeList_no_lt name.data (hlt ▸ h)) _ [],
      show skipTag ('/' :: 'h' :: '1' :: '>' :: body.data) = body.data from rfl]
    simp [flushChunk, hesc]
  rw [get_text, hchunks]
  simp only [List.map_cons]
  rw [unescape_escape]
  exact joinSep_head sep _ _

/-- C10: `_page_to_document` HTML-escapes the page name before embedding
it as the injected `<h1>` heading, so a name containing HTML markup
characters appears literally at the head of the extracted section text
rather than being parsed as tags. -/
theorem page_name_escaped_in_text (c : BookStackApiClient) (page : BRecord)
    (hmark : ∃ ch ∈ (pyStr (dictGet page "name")).data,
      ch = '<' ∨ ch = '>' ∨ ch = '&') :
    ∃ d rest, _page_to_document c page = .ok d ∧
      d.sections.map Section.text = [pyStr (dictGet page "name") ++ rest] := by
  have hne : (pyStr (dictGet page "name")).data ≠ [] := by
    obtain ⟨ch, hch, -⟩ := hmark
    intro h
    rw [h] at hch
    simp at hch
  obtain ⟨rest, hrest⟩ := get_text_h1 (pyStr (dictGet page "name"))
    (pyStr (dictGet (c.get ("/pages/" ++ pyStr (dictGet page "id")) []) "html"))
    HTML_SEPARATOR hne
  refine ⟨_, rest, rfl, ?_⟩
  simp only [_page_to_document, List.map_cons, List.map_nil]
  rw [hrest]

/-- A page listing record whose name contains HTML markup. -/
def markupPageRec : BRecord :=
  [("id", .vint 5), ("name", .vstr "<b>P1"), ("book_slug", .vstr "b1")]

/-- Witness for C10: the markup-bearing name heads the extracted text. -/
theorem page_name_escaped_in_text_witness :
    ∃ d rest, _page_to_document emptyClient markupPageRec = .ok d ∧
      d.sections.map Section.text = ["<b>P1" ++ rest] :=
  page_name_escaped_in_text emptyClient markupPageRec
    ⟨'<', by decide, Or.inl rfl⟩

end BookstackSpec
